import Mathlib

/-!
Verification of the chord-sheet document model and parser.

Shallow embedding of two source files:
  * src/src/chord_sheet/song.ts  — the Song document model and its
    copy-on-write transformation API (mapItems, mapLines, setCapo, setKey,
    paragraphs, addTag with section tracking);
  * src/unnamed/part_000          — UltimateGuitarParser, a line classifier
    feeding a Song.

Collaborator files that are not under src/ (line.ts, tag.ts, metadata.ts,
constants.ts, the base ChordSheetParser, MetadataAccessors, and
Song.setCurrentProperties, which the parser calls) are modelled from the
specification; every such definition carries a doc comment starting with
"Modelled from the spec:".

Conventions of the embedding:
  * JavaScript null / undefined for strings is Option String; a JS string is
    String.
  * Song.currentLine is a mutable reference in the source.  In every flow
    modelled here it is only ever set by the argument-less addLine(), which
    pushes a fresh Line and points currentLine at it, so the reference is
    always the last element of `lines`; we model it as a Bool flag
    `hasCurrentLine` plus updates of the last list element.  The source
    dereferences currentLine without a check in setCurrentLineType; the flows
    exercised by the claims always have a current line there, and the model
    makes the update a no-op on an empty list.
  * The parser's `songLine` field always coincides with song.currentLine
    (both are only assigned via startNewLine / addLine), so it is not
    duplicated in the parser state.
  * The explicit `throw new Error("Expected this.songLine to be present")`
    checks of the parser are modelled with Option: the functions return none
    exactly where the source would throw.
-/

namespace ChordSheet

/-- Modelled from the spec: constants.ts is not under src/; §3 gives the
section types NONE, VERSE, CHORUS, TAB as stable string tokens. -/
def NONE : String := "none"

/-- Modelled from the spec: section type token for verses. -/
def VERSE : String := "verse"

/-- Modelled from the spec: section type token for choruses. -/
def CHORUS : String := "chorus"

/-- Modelled from the spec: section type token for tablature. -/
def TAB : String := "tab"

/-- Modelled from the spec: tag.ts is not under src/; §6 lists the directive
name constants as stable string tokens. -/
def START_OF_CHORUS : String := "start_of_chorus"

/-- Modelled from the spec: directive name constant. -/
def END_OF_CHORUS : String := "end_of_chorus"

/-- Modelled from the spec: directive name constant. -/
def START_OF_TAB : String := "start_of_tab"

/-- Modelled from the spec: directive name constant. -/
def END_OF_TAB : String := "end_of_tab"

/-- Modelled from the spec: directive name constant. -/
def START_OF_VERSE : String := "start_of_verse"

/-- Modelled from the spec: directive name constant. -/
def END_OF_VERSE : String := "end_of_verse"

/-- Modelled from the spec: directive name constant. -/
def TRANSPOSE : String := "transpose"

/-- Modelled from the spec: directive name constant. -/
def NEW_KEY : String := "new_key"

/-- Modelled from the spec: directive name constant. -/
def CAPO : String := "capo"

/-- Modelled from the spec: directive name constant. -/
def KEY : String := "key"

/-- Modelled from the spec: directive name constant. -/
def COMMENT : String := "comment"

/-- Modelled from the spec: §3 — a Tag has a normalized `name`, the
`originalName` as written, a string `value`, and an optional source
position used for warnings. -/
structure Tag where
  name : String
  originalName : String
  value : String
  line : Option Nat
  column : Option Nat
deriving DecidableEq, Repr

/-- Modelled from the spec: `new Tag(name, value)` for a plain directive name
keeps the name as written and defaults the value to the empty string. -/
def Tag.ofName (name value : String) : Tag :=
  ⟨name, name, value, none, none⟩

/-- Modelled from the spec: §2/§4.1 — a meta tag is recorded into metadata;
its names are distinct from the section/transpose/new-key/capo/key/comment
directive classifications of §6.  Illustrative stable set. -/
def metaTagNames : List String :=
  ["title", "subtitle", "artist", "composer", "album", "copyright",
   "duration", "lyricist", "tempo", "time", "year"]

/-- Modelled from the spec: Tag.isMetaTag() classification predicate. -/
def Tag.isMetaTag (t : Tag) : Bool :=
  metaTagNames.contains t.name

/-- Modelled from the spec: §3 — a ChordLyricsPair has optional chords and a
lyric string; chords are none when the source passes null. -/
structure ChordLyricsPair where
  chords : Option String
  lyrics : String
deriving DecidableEq, Repr

/-- Item = Tag | ChordLyricsPair (src/src/chord_sheet/song.ts imports Item). -/
inductive Item where
  | tag : Tag → Item
  | pair : ChordLyricsPair → Item
deriving DecidableEq, Repr

/-- Modelled from the spec: §3 — a Line is an ordered item sequence plus the
section type and key context stamped at creation time. -/
structure Line where
  items : List Item
  type : String
  key : Option String
  transposeKey : Option String
deriving DecidableEq, Repr

/-- Modelled from the spec: line.ts is not under src/; a Line is empty when
it has no items (renders no visible content). -/
def Line.isEmpty (l : Line) : Bool :=
  l.items.isEmpty

/-- Modelled from the spec: §3 — a ChordLyricsPair renders content; a
section-boundary or meta tag renders nothing, a comment tag renders. -/
def Item.isRenderable : Item → Bool
  | Item.pair _ => true
  | Item.tag t => t.name = COMMENT

/-- Modelled from the spec: Line.hasRenderableItems(). -/
def Line.hasRenderableItems (l : Line) : Bool :=
  l.items.any Item.isRenderable

/-- Modelled from the spec: Line.addTag(name, value) builds a Tag and appends
it to the Line's items (used by Song.insertDirective on a fresh Line). -/
def Line.addTag (l : Line) (name value : String) : Line :=
  { l with items := l.items ++ [Item.tag (Tag.ofName name value)] }

/-- Modelled from the spec: §3 — Metadata is an ordered, multi-valued mapping
from names to one-or-many string values. -/
abbrev Metadata := List (String × List String)

/-- Values stored for a metadata name, if present. -/
def Metadata.lookup (md : Metadata) (name : String) : Option (List String) :=
  (md.find? (fun e => e.1 = name)).map (fun e => e.2)

/-- Modelled from the spec: §3 — add(name, value) appends preserving
uniqueness and insertion order of distinct values. -/
def Metadata.add (md : Metadata) (name value : String) : Metadata :=
  if md.any (fun e => e.1 = name) then
    md.map (fun e =>
      if e.1 = name then (e.1, if value ∈ e.2 then e.2 else e.2 ++ [value])
      else e)
  else
    md ++ [(name, [value])]

/-- Modelled from the spec: §3 — set(name, value) replaces all values for
name; in the source a null value deletes the entry (setCapo(null) relies on
this to remove the capo metadata entry). -/
def Metadata.set (md : Metadata) (name : String) (value : Option String) : Metadata :=
  match value with
  | none => md.filter (fun e => e.1 != name)
  | some v =>
    if md.any (fun e => e.1 = name) then
      md.map (fun e => if e.1 = name then (name, [v]) else e)
    else
      md ++ [(name, [v])]

/-- Modelled from the spec: §3 — getSingle(name) returns the lone value or
the first of multiple. -/
def Metadata.getSingle (md : Metadata) (name : String) : Option String :=
  (md.lookup name).bind List.head?

/-- ParserWarning (message plus optional position), src imports it from
../parser/parser_warning. -/
structure ParserWarning where
  message : String
  line : Option Nat
  column : Option Nat
deriving DecidableEq, Repr

/-- Song, from src/src/chord_sheet/song.ts.  `hasCurrentLine` models the
currentLine reference (see the header comment). -/
structure Song where
  lines : List Line
  metadata : Metadata
  hasCurrentLine : Bool
  warnings : List ParserWarning
  sectionType : String
  currentKey : Option String
  transposeKey : Option String
deriving DecidableEq, Repr

/-- A fresh Song, as built by `new Song()` (empty metadata, no lines). -/
def newSong : Song :=
  ⟨[], [], false, [], NONE, none, none⟩

/-- Map a function over the last element of a list; models an update through
the currentLine reference, which is the last element of `lines`. -/
def mapLast (f : α → α) : List α → List α
  | [] => []
  | [a] => [f a]
  | a :: b :: rest => a :: mapLast f (b :: rest)

/-- Update the Song's current line (the last element of `lines`). -/
def Song.modifyCurrentLine (s : Song) (f : Line → Line) : Song :=
  { s with lines := mapLast f s.lines }

/-- JavaScript `a || b` on nullable strings: the empty string is falsy. -/
def jsOrString (a b : Option String) : Option String :=
  match a with
  | some v => if v = "" then b else some v
  | none => b

/-- Song.addLine() (argument-less form, the only form used in the sources):
pushes a new Line, makes it current, stamps it with the section type and the
key context (`transposeKey ?? currentKey` and
`currentKey || metadata.getSingle(KEY)`). -/
def Song.addLine (s : Song) : Song :=
  let l : Line :=
    { items := []
      type := s.sectionType
      transposeKey := s.transposeKey.orElse (fun _ => s.currentKey)
      key := jsOrString s.currentKey (s.metadata.getSingle KEY) }
  { s with lines := s.lines ++ [l], hasCurrentLine := true }

/-- Song.ensureLine(): create a current line if none exists; idempotent. -/
def Song.ensureLine (s : Song) : Song :=
  if s.hasCurrentLine then s else s.addLine

/-- Song.previousLine getter: the second-to-last line when at least two
lines exist. -/
def Song.previousLine (s : Song) : Option Line :=
  if 2 ≤ s.lines.length then s.lines[s.lines.length - 2]? else none

/-- Song.addWarning(message, {line, column}). -/
def Song.addWarning (s : Song) (message : String) (line column : Option Nat) : Song :=
  { s with warnings := s.warnings ++ [⟨message, line, column⟩] }

/-- Song.checkCurrentSectionType(sectionType, tag): records a warning when
the tracked section type differs from the expected one. -/
def Song.checkCurrentSectionType (s : Song) (sectionType : String) (tag : Tag) : Song :=
  if s.sectionType ≠ sectionType then
    s.addWarning
      ("Unexpected tag \x7b" ++ tag.originalName ++ ", current section is: " ++ s.sectionType)
      tag.line tag.column
  else s

/-- Song.setCurrentLineType(sectionType): stamps the current line's type. -/
def Song.setCurrentLineType (s : Song) (sectionType : String) : Song :=
  s.modifyCurrentLine (fun l => { l with type := sectionType })

/-- Song.startSection(sectionType, tag). -/
def Song.startSection (s : Song) (sectionType : String) (tag : Tag) : Song :=
  let s := s.checkCurrentSectionType NONE tag
  let s := { s with sectionType := sectionType }
  s.setCurrentLineType sectionType

/-- Song.endSection(sectionType, tag): checks the tracked type (possibly
warning) and resets the section state to NONE regardless. -/
def Song.endSection (s : Song) (sectionType : String) (tag : Tag) : Song :=
  let s := s.checkCurrentSectionType sectionType tag
  { s with sectionType := NONE }

/-- Song.setSectionTypeFromTag(tag): dispatch on the six section
start/end directive names; any other name does nothing. -/
def Song.setSectionTypeFromTag (s : Song) (tag : Tag) : Song :=
  if tag.name = START_OF_CHORUS then s.startSection CHORUS tag
  else if tag.name = END_OF_CHORUS then s.endSection CHORUS tag
  else if tag.name = START_OF_TAB then s.startSection TAB tag
  else if tag.name = END_OF_TAB then s.endSection TAB tag
  else if tag.name = START_OF_VERSE then s.startSection VERSE tag
  else if tag.name = END_OF_VERSE then s.endSection VERSE tag
  else s

/-- Song.setMetadata(name, value) — delegates to Metadata.add. -/
def Song.setMetadata (s : Song) (name value : String) : Song :=
  { s with metadata := s.metadata.add name value }

/-- The dispatch stage of Song.addTag: meta tags go to metadata, transpose /
new-key update the key context, anything else goes through
setSectionTypeFromTag.  (Tag.parse of an existing Tag is that Tag; every
call site modelled here passes a Tag.) -/
def Song.addTagDispatch (s : Song) (tag : Tag) : Song :=
  if tag.isMetaTag then s.setMetadata tag.name tag.value
  else if tag.name = TRANSPOSE then { s with transposeKey := some tag.value }
  else if tag.name = NEW_KEY then { s with currentKey := some tag.value }
  else s.setSectionTypeFromTag tag

/-- Song.addTag(tag): dispatch, then ensureLine, then append the tag to the
current line's items. -/
def Song.addTag (s : Song) (tag : Tag) : Song :=
  let s := s.addTagDispatch tag
  let s := s.ensureLine
  s.modifyCurrentLine (fun l => { l with items := l.items ++ [Item.tag tag] })

/-- Song.addItem(item): Tags are routed through addTag; other items are
appended to the current line after ensureLine. -/
def Song.addItem (s : Song) (item : Item) : Song :=
  match item with
  | Item.tag t => s.addTag t
  | Item.pair _ =>
    let s := s.ensureLine
    s.modifyCurrentLine (fun l => { l with items := l.items ++ [item] })

/-- One item step of Song.mapItems's replay: fn(item) null drops the item,
otherwise the changed item is re-added via addItem. -/
def mapItemsStep (f : Item → Option Item) (cloned : Song) (item : Item) : Song :=
  match f item with
  | some changed => cloned.addItem changed
  | none => cloned

/-- Song.mapItems(fn): replays every Line/Item of the song into a brand-new
Song — addLine per original line, then fn over its items. -/
def Song.mapItems (s : Song) (f : Item → Option Item) : Song :=
  s.lines.foldl
    (fun cloned line => line.items.foldl (mapItemsStep f) cloned.addLine)
    newSong

/-- Song.clone() = mapItems(identity). -/
def Song.clone (s : Song) : Song :=
  s.mapItems (fun item => some item)

/-- Song.mapLines(fn): fn(line) null drops the whole Line; otherwise a new
Line is started and all the replacement's items re-added via addItem. -/
def Song.mapLines (s : Song) (f : Line → Option Line) : Song :=
  s.lines.foldl
    (fun cloned line =>
      match f line with
      | some changed => changed.items.foldl (fun c item => c.addItem item) cloned.addLine
      | none => cloned)
    newSong

/-- Song.removeItem(callback): per Line, excise the first matching item;
a Line whose single item matched is dropped entirely. -/
def Song.removeItem (s : Song) (p : Item → Bool) : Song :=
  s.mapLines (fun line =>
    match line.items.findIdx? p with
    | none => some line
    | some index =>
      if line.items.length = 1 then none
      else some { line with items := line.items.take index ++ line.items.drop (index + 1) })

/-- Song.updateItem(findCallback, updateCallback, notFoundCallback).  The
source sets a mutable `found` flag inside the mapItems callback; the flag
ends up true exactly when some item of the song satisfies findCallback. -/
def Song.updateItem (s : Song) (findCb : Item → Bool) (updateCb : Item → Item)
    (notFoundCb : Song → Song) : Song :=
  let found := s.lines.any (fun l => l.items.any findCb)
  let updatedSong := s.mapItems (fun item => some (if findCb item then updateCb item else item))
  if found then updatedSong else notFoundCb updatedSong

/-- Predicate `(item) => item instanceof Tag && item.name === CAPO`. -/
def isCapoItem : Item → Bool
  | Item.tag t => t.name = CAPO
  | Item.pair _ => false

/-- Modelled from the spec: Tag.set({value}) produces a new Tag instance with
the value replaced (tags are immutable); on a non-Tag item this is never
invoked in the source. -/
def Item.setTagValue (item : Item) (v : String) : Item :=
  match item with
  | Item.tag t => Item.tag { t with value := v }
  | Item.pair p => Item.pair p

/-- Song.insertDirective(name, value, {after}): inserts a fresh one-tag Line
into a clone at the position of the first content Line.  JS findIndex
returning -1 makes `slice(0,-1), newLine, slice(-1)`, i.e. insertion before
the last line (or as the only line when there are none). -/
def Song.insertDirective (s : Song) (name value : String) (after : Option String) : Song :=
  let insertIndex? := s.lines.findIdx? (fun line =>
    line.items.any (fun item =>
      match item, after with
      | Item.pair _, _ => true
      | Item.tag t, some a => t.name = a
      | Item.tag _, none => false))
  let newLine : Line := Line.addTag ⟨[], NONE, none, none⟩ name value
  let clonedSong := s.clone
  let i :=
    match insertIndex? with
    | some i => i
    | none => clonedSong.lines.length - 1
  { clonedSong with lines := clonedSong.lines.take i ++ [newLine] ++ clonedSong.lines.drop i }

/-- Song.setCapo(capo): null removes every first-per-line capo Tag and the
capo metadata entry; a value updates the first existing capo Tag or inserts
a capo directive, and sets the metadata either way. -/
def Song.setCapo (s : Song) (capo : Option String) : Song :=
  let updatedSong :=
    match capo with
    | none => s.removeItem isCapoItem
    | some v =>
      s.updateItem isCapoItem (fun item => item.setTagValue v)
        (fun song => song.insertDirective CAPO v none)
  { updatedSong with metadata := updatedSong.metadata.set "capo" capo }

/-- Modelled from the spec: `this.key` is the MetadataAccessors getter (file
not under src/); per §3 it is Metadata's single-value accessor for the
`key` entry. -/
def Song.songKey (s : Song) : Option String :=
  s.metadata.getSingle KEY

/-- Song.setKey(key), parameterized by the external music-theory
collaborator of §6: `dist` is Key.distance and `trans` is
ChordLyricsPair.transpose.  Key tags are rewritten to the new key, every
pair is transposed by `dist (song key accessor) key`, and metadata.key is
set. -/
def Song.setKey (dist : Option String → String → Int)
    (trans : ChordLyricsPair → Int → String → ChordLyricsPair)
    (s : Song) (key : String) : Song :=
  let offset := dist s.songKey key
  let updatedSong := s.mapItems (fun item =>
    match item with
    | Item.tag t => if t.name = KEY then some (Item.tag { t with value := key }) else some item
    | Item.pair p => some (Item.pair (trans p offset key)))
  { updatedSong with metadata := updatedSong.metadata.set "key" (some key) }

/-- One line step of the paragraphs fold: an empty Line finishes the current
group and starts a new one; a renderable Line joins the current group; any
other Line is skipped. -/
def paragraphsStep (acc : List (List Line) × List Line) (line : Line) :
    List (List Line) × List Line :=
  if line.isEmpty then (acc.1 ++ [acc.2], [])
  else if line.hasRenderableItems then (acc.1, acc.2 ++ [line])
  else acc

/-- Song.paragraphs getter: the grouping of lines; the source keeps the
current paragraph aliased at the end of the array, modelled by appending the
trailing group after the fold. -/
def Song.paragraphs (s : Song) : List (List Line) :=
  let r := s.lines.foldl paragraphsStep ([], [])
  r.1 ++ [r.2]

/-- Item sequences of a Song's lines, the structural content the
transformation claims are about. -/
def lineItemsOf (s : Song) : List (List Item) :=
  s.lines.map Line.items

/-- Total number of items in the Song. -/
def Song.itemCount (s : Song) : Nat :=
  ((lineItemsOf s).map List.length).sum

/-!
UltimateGuitarParser (src/unnamed/part_000).

The regular expressions of the source are translated into executable
recognizers over the character list; each carries a comment relating it to
the regex it models.
-/

/-- Index of the last occurrence of a character, if any. -/
def lastIdxOf (c : Char) : List Char → Option Nat
  | [] => none
  | a :: rest =>
    match lastIdxOf c rest with
    | some k => some (k + 1)
    | none => if a = c then some 0 else none

/-- VERSE_LINE_REGEX = ^\[(Verse.*)] (case-insensitive): a leading bracket,
"verse" case-insensitively, and a closing bracket somewhere after; the
greedy capture runs to the last closing bracket. -/
def verseMatch (line : String) : Option String :=
  match line.data with
  | '[' :: rest =>
    if (rest.take 5).map Char.toLower = "verse".data then
      match lastIdxOf ']' (rest.drop 5) with
      | some k => some (String.mk (rest.take (5 + k)))
      | none => none
    else none
  | _ => none

/-- CHORUS_LINE_REGEX = ^\[(Chorus)] (case-insensitive): exactly a bracketed
"chorus"; the capture is the six characters as written. -/
def chorusMatch (line : String) : Option String :=
  match line.data with
  | '[' :: rest =>
    if (rest.take 6).map Char.toLower = "chorus".data then
      match rest.drop 6 with
      | ']' :: _ => some (String.mk (rest.take 6))
      | _ => none
    else none
  | _ => none

/-- OTHER_METADATA_LINE_REGEX = ^\[([^\]]+)]: a leading bracket, at least
one non-bracket character, then a closing bracket; the capture runs to the
first closing bracket. -/
def otherMatch (line : String) : Option String :=
  match line.data with
  | '[' :: rest =>
    let pre := rest.takeWhile (fun c => c ≠ ']')
    if pre.isEmpty then none
    else if pre.length < rest.length then some (String.mk pre)
    else none
  | _ => none

/-- Number of dash characters;
`line.length - line.replaceAll("-", "").length` in the source. -/
def dashCount (line : String) : Nat :=
  line.data.count '-'

/-- Characters of the regex character class [A-G|Do|Re|Mi|Fa|Sol|La|Si]
(a class of single characters, including the bar). -/
def isChordClassChar (c : Char) : Bool :=
  "ABCDEFG|DoReMiFaSolLaSi".data.contains c

/-- Whether one whitespace-free word matches the chord-token part of
CHORD_LINE_REGEX, ([A-G|...])(#|b)?([^/\s]*)(\/([A-G|...])(#|b)?)? followed
by whitespace or end: with no slash, any word starting with a class
character (the accidental and [^/\s]* absorb the rest); with a slash, the
part before the first slash must start with a class character and the part
after must be exactly a class character with an optional accidental. -/
def isChordWord (w : List Char) : Bool :=
  let pre := w.takeWhile (fun c => c ≠ '/')
  match w.drop pre.length with
  | [] =>
    match w with
    | c :: _ => isChordClassChar c
    | [] => false
  | '/' :: bass =>
    (match pre with
     | c :: _ => isChordClassChar c
     | [] => false) &&
    (match bass with
     | [b] => isChordClassChar b
     | [b, a] => isChordClassChar b && (a = '#' || a = 'b')
     | _ => false)
  | _ => false

/-- Whitespace-separated words of a line (helper for the chord-line test). -/
def wordsOfAux : List Char → List Char → List (List Char)
  | [], cur => if cur.isEmpty then [] else [cur.reverse]
  | c :: rest, cur =>
    if c.isWhitespace then
      if cur.isEmpty then wordsOfAux rest []
      else cur.reverse :: wordsOfAux rest []
    else wordsOfAux rest (c :: cur)

/-- CHORD_LINE_REGEX.test(line): because every chord token must be followed
by whitespace or the end and the trailing (\s|$)+ group needs whitespace or
the end as well, the regex accepts exactly the lines consisting of one or
more whitespace-separated valid chord words. -/
def chordLineTest (line : String) : Bool :=
  let ws := wordsOfAux line.data []
  !ws.isEmpty && ws.all isChordWord

/-- One attempted match of REPETITION_REGEX = ([0-9]+x:*)|(x[0-9]+:*) at the
head of the character list; returns the matched text and the rest.  The
first alternative is tried first, as in the regex. -/
def repMatchAt (cs : List Char) : Option (List Char × List Char) :=
  let ds := cs.takeWhile Char.isDigit
  let alt1 : Option (List Char × List Char) :=
    if ds.isEmpty then none
    else
      match cs.drop ds.length with
      | 'x' :: rest =>
        let cols := rest.takeWhile (fun c => c = ':')
        some (ds ++ 'x' :: cols, rest.drop cols.length)
      | _ => none
  match alt1 with
  | some r => some r
  | none =>
    match cs with
    | 'x' :: rest =>
      let ds2 := rest.takeWhile Char.isDigit
      if ds2.isEmpty then none
      else
        let cols := (rest.drop ds2.length).takeWhile (fun c => c = ':')
        some ('x' :: (ds2 ++ cols), (rest.drop ds2.length).drop cols.length)
    | _ => none

/-- Global left-to-right scan for REPETITION_REGEX: the list of matches and
the text with the matches removed.  Fuel is the character count; every step
consumes at least one character, so the fuel never runs out. -/
def repScanAux : Nat → List Char → List String × List Char
  | 0, cs => ([], cs)
  | _ + 1, [] => ([], [])
  | fuel + 1, c :: rest =>
    match repMatchAt (c :: rest) with
    | some (m, after) =>
      let r := repScanAux fuel after
      (String.mk m :: r.1, r.2)
    | none =>
      let r := repScanAux fuel rest
      (r.1, c :: r.2)

/-- line.match(REPETITION_REGEX): the list of all matches. -/
def repScan (line : String) : List String :=
  (repScanAux line.data.length line.data).1

/-- line.replace(REPETITION_REGEX, ""): the line with all matches removed. -/
def repStrip (line : String) : String :=
  String.mk (repScanAux line.data.length line.data).2

/-- Whether `pat` occurs at the head of `cs`. -/
def listStartsWith : List Char → List Char → Bool
  | [], _ => true
  | _ :: _, [] => false
  | p :: ps, c :: cs => p = c && listStartsWith ps cs

/-- String.prototype.replace with a plain-string pattern replaces only the
first occurrence. -/
def replaceFirstChars : List Char → List Char → List Char → List Char
  | [], _, _ => []
  | c :: rest, pat, repl =>
    if listStartsWith pat (c :: rest) then repl ++ (c :: rest).drop pat.length
    else c :: replaceFirstChars rest pat repl

/-- line.replace(pat, repl) for a plain-string pattern. -/
def replaceFirst (s pat repl : String) : String :=
  String.mk (replaceFirstChars s.data pat.data repl.data)

/-- rep_only[0].replace(":", ""): removes the first colon only. -/
def removeFirstColon (s : String) : String :=
  replaceFirst s ":" ""

/-- A run of n spaces, `" ".repeat(n)`. -/
def spacesOf (n : Nat) : String :=
  String.mk (List.replicate n ' ')

/-- Modelled from the spec: Song.setCurrentProperties is called by the
parser but is not defined in src/src/chord_sheet/song.ts.  §4.2 has the
parser itself track the section state (currentSectionType), while §8
demands that a balanced verse produces no warnings — which forces this
method to stamp the current Line's properties (cf. setCurrentLineType)
rather than Song.sectionType, which is managed by startSection/endSection
through addTag. -/
def Song.setCurrentProperties (s : Song) (sectionType : String) : Song :=
  s.setCurrentLineType sectionType

/-- UltimateGuitarParser state: the Song under construction and the
tracked currentSectionType.  The base parser's songLine always coincides
with song.currentLine (see the header comment). -/
structure UGState where
  song : Song
  currentSectionType : Option String
deriving DecidableEq, Repr

/-- Modelled from the spec: the base parser starts with a fresh Song, no
songLine and no open section. -/
def UGState.initial : UGState :=
  ⟨newSong, none⟩

/-- startNewLine(): this.songLine = this.song.addLine(). -/
def UGState.startNewLine (st : UGState) : UGState :=
  { st with song := st.song.addLine }

/-- startSectionTags lookup: the start directive for a known section. -/
def startTagFor (t : String) : Option String :=
  if t = VERSE then some START_OF_VERSE
  else if t = CHORUS then some START_OF_CHORUS
  else if t = TAB then some START_OF_TAB
  else none

/-- endSectionTags lookup: the end directive for a known section. -/
def endTagFor (t : String) : Option String :=
  if t = VERSE then some END_OF_VERSE
  else if t = CHORUS then some END_OF_CHORUS
  else if t = TAB then some END_OF_TAB
  else none

/-- UltimateGuitarParser.endSection({addNewLine}): emit the end directive of
the tracked section (when it has one), optionally start a new line, and
reset both the song's current properties and the tracked section. -/
def UGState.endSectionUG (st : UGState) (addNewLine : Bool) : UGState :=
  let st :=
    match st.currentSectionType with
    | some t =>
      match endTagFor t with
      | some tagName =>
        let st := { st with song := st.song.addTag (Tag.ofName tagName "") }
        if addNewLine then st.startNewLine else st
      | none => st
    | none => st
  { st with song := st.song.setCurrentProperties NONE, currentSectionType := none }

/-- UltimateGuitarParser.startSection(sectionType, label): close any open
section first (JS truthiness: the empty string would not count), track the
new type, stamp the song's current properties, and emit the start
directive. -/
def UGState.startSectionUG (st : UGState) (sectionType label : String) : UGState :=
  let st :=
    match st.currentSectionType with
    | some t => if t = "" then st else st.endSectionUG true
    | none => st
  let st := { st with currentSectionType := some sectionType }
  let st := { st with song := st.song.setCurrentProperties sectionType }
  match startTagFor sectionType with
  | some tagName => { st with song := st.song.addTag (Tag.ofName tagName label) }
  | none => st

/-- UltimateGuitarParser.isSectionEnd(): the current songLine exists and is
empty while the previous line is non-empty. -/
def UGState.isSectionEnd (st : UGState) : Bool :=
  st.song.hasCurrentLine &&
  (match st.song.lines.getLast? with
   | some l => l.items.isEmpty
   | none => false) &&
  (match st.song.previousLine with
   | some l => !l.items.isEmpty
   | none => false)

/-- Modelled from the spec: this.songLine.addChordLyricsPair(chords, lyrics)
appends a pair directly to the current Line (line.ts is not under src/). -/
def UGState.addPairToSongLine (st : UGState) (p : ChordLyricsPair) : UGState :=
  { st with song :=
      st.song.modifyCurrentLine (fun l => { l with items := l.items ++ [Item.pair p] }) }

/-- Modelled from the spec: this.songLine.addTag(tag) appends a tag directly
to the current Line, without Song.addTag's dispatch. -/
def UGState.addTagToSongLine (st : UGState) (t : Tag) : UGState :=
  { st with song :=
      st.song.modifyCurrentLine (fun l => { l with items := l.items ++ [Item.tag t] }) }

/-- Modelled from the spec: §4.2 item 7, the base parser's fallback line
handling — starts a new Line; a blank line (only whitespace) contributes no
items; otherwise the line is paired into chord/lyric content (the exact
pairing is delegated, lower-complexity logic the spec leaves open; the model
uses a single pair with empty chords and the raw line as lyrics). -/
def UGState.baseParseLine (st : UGState) (line : String) : UGState :=
  let st := st.startNewLine
  if line.data.all Char.isWhitespace then st
  else st.addPairToSongLine ⟨some "", line⟩

/-- UltimateGuitarParser.parseMetadataLine(line): new line, close any open
section, then attach the bracketed text as a comment Tag to the song line.
The null check on songLine is the source's thrown error, modelled as none. -/
def UGState.parseMetadataLine (st : UGState) (line : String) : Option UGState :=
  let st := st.startNewLine
  let st := st.endSectionUG true
  let comment := (otherMatch line).getD ""
  if st.song.hasCurrentLine then
    some (st.addTagToSongLine (Tag.ofName COMMENT comment))
  else none

/-- UltimateGuitarParser.writeTabLine(line): new line; if no TAB section is
open, another new line and a TAB section start; then the whole raw line is
appended as a chord-less pair.  The null check is modelled as none. -/
def UGState.writeTabLine (st : UGState) (line : String) : Option UGState :=
  let st := st.startNewLine
  let st :=
    if st.currentSectionType ≠ some TAB then (st.startNewLine).startSectionUG TAB ""
    else st
  if st.song.hasCurrentLine then
    some (st.addPairToSongLine ⟨none, line⟩)
  else none

/-- UltimateGuitarParser.parseLine(line): blank-line section end first, then
the branch cascade — verse marker, chorus marker, other bracketed metadata,
the dash-density tablature heuristic, the chord-line-with-repetition-marker
branch, and the base fallback.  rep_only[0] is modelled with headD under the
guard that the match list is non-empty. -/
def UGState.parseLine (st : UGState) (line : String) : Option UGState :=
  let st := if st.isSectionEnd then st.endSectionUG true else st
  if (verseMatch line).isSome then
    some ((st.startNewLine).startSectionUG VERSE ((verseMatch line).getD ""))
  else if (chorusMatch line).isSome then
    some ((st.startNewLine).startSectionUG CHORUS ((chorusMatch line).getD ""))
  else if (otherMatch line).isSome then
    st.parseMetadataLine line
  else if 8 < line.length ∧ 5 < dashCount line then
    st.writeTabLine line
  else if chordLineTest (repStrip line) = true ∧ repScan line ≠ [] then
    let rep0 := (repScan line).headD ""
    let chordsOnly := replaceFirst line rep0 (spacesOf rep0.length)
    let st := st.startNewLine
    if st.song.hasCurrentLine then
      some (st.addPairToSongLine
        ⟨some chordsOnly, spacesOf chordsOnly.length ++ removeFirstColon rep0⟩)
    else none
  else
    some (st.baseParseLine line)

/-- UltimateGuitarParser.endOfSong(): the base finalization (modelled from
the spec as adding nothing), a trailing new line when a known section is
still open, and a force-close without a further new line. -/
def UGState.endOfSong (st : UGState) : UGState :=
  let st :=
    match st.currentSectionType with
    | some t => if (endTagFor t).isSome then st.startNewLine else st
    | none => st
  st.endSectionUG false

/-- Modelled from the spec: the base parser's parse loop feeds the raw lines
one at a time to parseLine and finishes with endOfSong, returning the Song. -/
def ugParse (input : List String) : Option Song :=
  (input.foldlM UGState.parseLine UGState.initial).map
    (fun st => st.endOfSong.song)

/-!
Characterization functions and concrete instances used by the claim
theorems.
-/

/-- What Song.removeItem does to one Line's item sequence: the first item
matching the predicate is excised; a singleton Line that matched is dropped
(none); a Line with no match is kept as is. -/
def removeFirstMatchingItems (p : Item → Bool) (items : List Item) : Option (List Item) :=
  match items.findIdx? p with
  | none => some items
  | some index =>
    if items.length = 1 then none
    else some (items.take index ++ items.drop (index + 1))

/-- The item rewrite Song.setKey performs on each item: key tags get the new
key as value, pairs are transposed by the distance from the song's key
metadata entry to the new key. -/
def setKeyItem (dist : Option String → String → Int)
    (trans : ChordLyricsPair → Int → String → ChordLyricsPair)
    (s : Song) (key : String) : Item → Item
  | Item.tag t => if t.name = KEY then Item.tag { t with value := key } else Item.tag t
  | Item.pair p => Item.pair (trans p (dist s.songKey key) key)

/-- What Song.addTag with an end-of-chorus tag does when the tracked section
type is not CHORUS: exactly one warning is recorded, whose message carries
the tag's original name and the tracked section type, the section state is
reset to NONE, and the content stays intact apart from the appended tag. -/
def endOfChorusMismatch (s : Song) (orig val : String) : Prop :=
  let tag : Tag := ⟨END_OF_CHORUS, orig, val, none, none⟩
  (s.addTag tag).warnings =
      s.warnings ++
        [⟨"Unexpected tag \x7b" ++ orig ++ ", current section is: " ++ s.sectionType,
          none, none⟩]
  ∧ (s.addTag tag).sectionType = NONE
  ∧ lineItemsOf (s.addTag tag) =
      (if s.hasCurrentLine then mapLast (fun its => its ++ [Item.tag tag]) (lineItemsOf s)
       else lineItemsOf s ++ [[Item.tag tag]])

/-- Song with constructor-seeded metadata and no lines (counterexample
input for the clone claim). -/
def seededSong : Song :=
  ⟨[], [("title", ["X"])], false, [], NONE, none, none⟩

/-- A Line holding exactly the given items, with default annotations. -/
def lineOfItems (items : List Item) : Line :=
  ⟨items, NONE, none, none⟩

/-- A Song holding the given item sequences as its lines. -/
def songOfItems (ls : List (List Item)) : Song :=
  ⟨ls.map lineOfItems, [], false, [], NONE, none, none⟩

/-- Song with one Line carrying two capo tags (counterexample input for the
setCapo(null) claim). -/
def twoCapoSong : Song :=
  songOfItems [[Item.tag (Tag.ofName CAPO "2"), Item.tag (Tag.ofName CAPO "2")]]

/-- Song that already carries a capo directive next to content
(counterexample input for the capo round-trip claim). -/
def capoContentSong : Song :=
  songOfItems [[Item.tag (Tag.ofName CAPO "1"), Item.pair ⟨some "C", "hello"⟩]]

/-- Concrete music-theory distance for the setKey counterexample: 1 from any
present key, 0 from an absent one. -/
def distProbe : Option String → String → Int :=
  fun k _ => match k with | some _ => 1 | none => 0

/-- Concrete transpose collaborator for the setKey counterexample: records
in the lyrics whether the offset was zero. -/
def transProbe : ChordLyricsPair → Int → String → ChordLyricsPair :=
  fun p off _ => ⟨p.chords, if off = 0 then "0" else "1"⟩

/-- Song whose transient currentKey ("G") differs from its key metadata
(absent), separating distance(currentKey, k) from distance(song key, k). -/
def keyProbeSong : Song :=
  ⟨[⟨[Item.pair ⟨some "C", "x"⟩], NONE, none, none⟩], [], false, [], NONE, some "G", none⟩

/-- Capo-free two-line content Song (witness input for the capo
round-trip). -/
def plainContentSong : Song :=
  songOfItems [[Item.pair ⟨some "C", "hello"⟩], [Item.pair ⟨none, "world"⟩]]

/-- Input whose verse section is opened and later closed by the blank-line
rule (witness input for the section-balance claim). -/
def balancedVerseInput : List String :=
  ["[Verse 1]", "Hello", "", "Bye"]

/-- Song with a tracked verse section and nothing else (witness input for
the mismatched end-of-chorus). -/
def verseStateSong : Song :=
  ⟨[], [], false, [], VERSE, none, none⟩

/-- First demo line of the paragraph-grouping claim (content). -/
def demoLine1 : Line := lineOfItems [Item.pair ⟨some "A", "x"⟩]

/-- Second demo line (empty). -/
def demoLine2 : Line := lineOfItems []

/-- Third demo line (content). -/
def demoLine3 : Line := lineOfItems [Item.pair ⟨some "B", "y"⟩]

/-- Fourth demo line (content). -/
def demoLine4 : Line := lineOfItems [Item.pair ⟨some "C", "z"⟩]

/-- Song over the four demo lines: content, empty, content, content. -/
def demoParagraphSong : Song :=
  ⟨[demoLine1, demoLine2, demoLine3, demoLine4], [], false, [], NONE, none, none⟩

/-!
Generic lemmas about mapLast.
-/

theorem mapLast_congr {f g : α → α} (l : List α) (h : ∀ a, f a = g a) :
    mapLast f l = mapLast g l := by
  have hfg : f = g := funext h
  rw [hfg]

theorem mapLast_id (l : List α) : mapLast (fun a => a) l = l := by
  induction l with
  | nil => rfl
  | cons b l ih =>
    cases l with
    | nil => rfl
    | cons c l' =>
      show b :: mapLast (fun a => a) (c :: l') = b :: (c :: l')
      rw [ih]

theorem length_mapLast (f : α → α) (l : List α) :
    (mapLast f l).length = l.length := by
  induction l with
  | nil => rfl
  | cons b l ih =>
    cases l with
    | nil => rfl
    | cons c l' =>
      show (b :: mapLast f (c :: l')).length = (b :: c :: l').length
      simp only [List.length_cons]
      rw [ih]
      simp

theorem mapLast_ne_nil (f : α → α) {l : List α} (h : l ≠ []) :
    mapLast f l ≠ [] := by
  intro hnil
  have hl := length_mapLast f l
  rw [hnil] at hl
  exact h (List.eq_nil_of_length_eq_zero hl.symm)

theorem mapLast_cons_of_ne_nil (f : α → α) (a : α) {l : List α} (h : l ≠ []) :
    mapLast f (a :: l) = a :: mapLast f l := by
  cases l with
  | nil => exact absurd rfl h
  | cons c l' => rfl

theorem mapLast_concat (f : α → α) (l : List α) (a : α) :
    mapLast f (l ++ [a]) = l ++ [f a] := by
  induction l with
  | nil => rfl
  | cons b l ih =>
    cases l with
    | nil => rfl
    | cons c l' =>
      show b :: mapLast f ((c :: l') ++ [a]) = b :: ((c :: l') ++ [f a])
      rw [ih]

theorem mapLast_mapLast (f g : α → α) (l : List α) :
    mapLast f (mapLast g l) = mapLast (fun a => f (g a)) l := by
  induction l with
  | nil => rfl
  | cons b l ih =>
    cases l with
    | nil => rfl
    | cons c l' =>
      have h1 : mapLast g (b :: c :: l') = b :: mapLast g (c :: l') := rfl
      have hne : mapLast g (c :: l') ≠ [] := mapLast_ne_nil g (by simp)
      rw [h1, mapLast_cons_of_ne_nil f b hne, ih]
      rfl

theorem map_mapLast (f : α → α) (g : α → β) (h : β → β) (l : List α)
    (hyp : ∀ a, g (f a) = h (g a)) :
    (mapLast f l).map g = mapLast h (l.map g) := by
  induction l with
  | nil => rfl
  | cons b l ih =>
    cases l with
    | nil =>
      show [g (f b)] = [h (g b)]
      rw [hyp]
    | cons c l' =>
      have h1 : mapLast f (b :: c :: l') = b :: mapLast f (c :: l') := rfl
      rw [h1, List.map_cons, ih]
      rfl

theorem map_mapLast_invariant (f : α → α) (g : α → β) (l : List α)
    (hyp : ∀ a, g (f a) = g a) :
    (mapLast f l).map g = l.map g := by
  rw [map_mapLast f g (fun b => b) l hyp, mapLast_id]

theorem getLast?_mapLast (f : α → α) (l : List α) :
    (mapLast f l).getLast? = l.getLast?.map f := by
  induction l with
  | nil => rfl
  | cons b l ih =>
    cases l with
    | nil => rfl
    | cons c l' =>
      have h1 : mapLast f (b :: c :: l') = b :: mapLast f (c :: l') := rfl
      have hne : mapLast f (c :: l') ≠ [] := mapLast_ne_nil f (by simp)
      rw [h1]
      cases hx : mapLast f (c :: l') with
      | nil => exact absurd hx hne
      | cons y ys =>
        rw [List.getLast?_cons_cons, ← hx, ih, List.getLast?_cons_cons]

/-!
Generic list helpers.
-/

theorem filterMap_someFn (l : List α) : (l.filterMap fun a => some a) = l := by
  induction l with
  | nil => rfl
  | cons a l ih => simp [List.filterMap_cons, ih]

theorem filterMap_eq_map_of (f : α → Option β) (g : α → β) (l : List α)
    (h : ∀ a, f a = some (g a)) :
    l.filterMap f = l.map g := by
  induction l with
  | nil => rfl
  | cons a l ih => simp [List.filterMap_cons, h, ih]

theorem filterMap_eq_self_of (g : α → Option α) (l : List α)
    (h : ∀ a ∈ l, g a = some a) :
    l.filterMap g = l := by
  induction l with
  | nil => rfl
  | cons a l ih =>
    simp [List.filterMap_cons, h a (by simp)]
    exact ih (fun a ha => h a (by simp [ha]))

theorem findIdx?_none_of (p : α → Bool) (l : List α)
    (h : ∀ a ∈ l, p a = false) :
    l.findIdx? p = none :=
  List.findIdx?_eq_none_iff.mpr h

theorem find?_append_of_none (p : α → Bool) (l rest : List α)
    (h : ∀ a ∈ l, p a = false) :
    (l ++ rest).find? p = rest.find? p := by
  induction l with
  | nil => rfl
  | cons a l ih =>
    simp only [List.cons_append, List.find?]
    rw [h a (by simp)]
    exact ih (fun a ha => h a (by simp [ha]))

/-!
Lemmas about the Song primitives: how each operation acts on the item
sequences of the lines (lineItemsOf) and on the current-line flag.
-/

theorem lineItemsOf_addLine (s : Song) :
    lineItemsOf s.addLine = lineItemsOf s ++ [[]] := by
  simp [lineItemsOf, Song.addLine]

theorem hasCurrentLine_addLine (s : Song) : s.addLine.hasCurrentLine = true := rfl

theorem lineItemsOf_modifyAppend (s : Song) (it : Item) :
    lineItemsOf (s.modifyCurrentLine (fun l => { l with items := l.items ++ [it] })) =
      mapLast (fun its => its ++ [it]) (lineItemsOf s) := by
  simp only [lineItemsOf, Song.modifyCurrentLine]
  exact map_mapLast _ _ _ _ (fun a => rfl)

theorem lineItemsOf_setCurrentLineType (s : Song) (t : String) :
    lineItemsOf (s.setCurrentLineType t) = lineItemsOf s := by
  simp only [lineItemsOf, Song.setCurrentLineType, Song.modifyCurrentLine]
  exact map_mapLast_invariant _ _ _ (fun a => rfl)

theorem lineItemsOf_startSection (s : Song) (t : String) (tag : Tag) :
    lineItemsOf (s.startSection t tag) = lineItemsOf s := by
  simp only [Song.startSection, Song.checkCurrentSectionType]
  split
  · rw [lineItemsOf_setCurrentLineType]
    rfl
  · rw [lineItemsOf_setCurrentLineType]
    rfl

theorem lineItemsOf_endSection (s : Song) (t : String) (tag : Tag) :
    lineItemsOf (s.endSection t tag) = lineItemsOf s := by
  simp only [Song.endSection, Song.checkCurrentSectionType]
  split <;> rfl

theorem lineItemsOf_addTagDispatch (s : Song) (tag : Tag) :
    lineItemsOf (s.addTagDispatch tag) = lineItemsOf s := by
  simp only [Song.addTagDispatch, Song.setMetadata, Song.setSectionTypeFromTag]
  split
  · rfl
  · split
    · rfl
    · split
      · rfl
      · split
        · exact lineItemsOf_startSection ..
        · split
          · exact lineItemsOf_endSection ..
          · split
            · exact lineItemsOf_startSection ..
            · split
              · exact lineItemsOf_endSection ..
              · split
                · exact lineItemsOf_startSection ..
                · split
                  · exact lineItemsOf_endSection ..
                  · rfl

theorem hasCurrentLine_startSection (s : Song) (t : String) (tag : Tag) :
    (s.startSection t tag).hasCurrentLine = s.hasCurrentLine := by
  simp only [Song.startSection, Song.checkCurrentSectionType, Song.addWarning,
    Song.setCurrentLineType, Song.modifyCurrentLine]
  split <;> rfl

theorem hasCurrentLine_endSection (s : Song) (t : String) (tag : Tag) :
    (s.endSection t tag).hasCurrentLine = s.hasCurrentLine := by
  simp only [Song.endSection, Song.checkCurrentSectionType, Song.addWarning]
  split <;> rfl

theorem hasCurrentLine_addTagDispatch (s : Song) (tag : Tag) :
    (s.addTagDispatch tag).hasCurrentLine = s.hasCurrentLine := by
  simp only [Song.addTagDispatch, Song.setMetadata, Song.setSectionTypeFromTag]
  split
  · rfl
  · split
    · rfl
    · split
      · rfl
      · split
        · exact hasCurrentLine_startSection ..
        · split
          · exact hasCurrentLine_endSection ..
          · split
            · exact hasCurrentLine_startSection ..
            · split
              · exact hasCurrentLine_endSection ..
              · split
                · exact hasCurrentLine_startSection ..
                · split
                  · exact hasCurrentLine_endSection ..
                  · rfl

theorem hasCurrentLine_addTag (s : Song) (tag : Tag) :
    (s.addTag tag).hasCurrentLine = true := by
  simp only [Song.addTag, Song.ensureLine]
  split
  next h => simpa [Song.modifyCurrentLine] using h
  next h => simp [Song.modifyCurrentLine, Song.addLine]

theorem lineItemsOf_addTag_true (s : Song) (tag : Tag) (h : s.hasCurrentLine = true) :
    lineItemsOf (s.addTag tag) =
      mapLast (fun its => its ++ [Item.tag tag]) (lineItemsOf s) := by
  simp only [Song.addTag, Song.ensureLine]
  rw [if_pos ((hasCurrentLine_addTagDispatch s tag).trans h)]
  rw [lineItemsOf_modifyAppend, lineItemsOf_addTagDispatch]

theorem lineItemsOf_addTag_false (s : Song) (tag : Tag) (h : s.hasCurrentLine = false) :
    lineItemsOf (s.addTag tag) = lineItemsOf s ++ [[Item.tag tag]] := by
  simp only [Song.addTag, Song.ensureLine]
  rw [if_neg (by rw [hasCurrentLine_addTagDispatch s tag, h]; simp)]
  rw [lineItemsOf_modifyAppend, lineItemsOf_addLine, lineItemsOf_addTagDispatch,
    mapLast_concat]
  rfl

theorem hasCurrentLine_addItem (s : Song) (it : Item) :
    (s.addItem it).hasCurrentLine = true := by
  cases it with
  | tag t => exact hasCurrentLine_addTag s t
  | pair p =>
    simp only [Song.addItem, Song.ensureLine]
    split
    next h => simpa [Song.modifyCurrentLine] using h
    next h => simp [Song.modifyCurrentLine, Song.addLine]

theorem lineItemsOf_addItem (s : Song) (it : Item) (h : s.hasCurrentLine = true) :
    lineItemsOf (s.addItem it) = mapLast (fun its => its ++ [it]) (lineItemsOf s) := by
  cases it with
  | tag t => exact lineItemsOf_addTag_true s t h
  | pair p =>
    simp only [Song.addItem, Song.ensureLine]
    rw [if_pos h]
    exact lineItemsOf_modifyAppend s _

/-!
Replay lemmas: mapItems and mapLines rebuild exactly the original line
structure with the callback applied itemwise.
-/

theorem itemsFold_hasCurrentLine (f : Item → Option Item) (items : List Item) (acc : Song)
    (h : acc.hasCurrentLine = true) :
    (items.foldl (mapItemsStep f) acc).hasCurrentLine = true := by
  induction items generalizing acc with
  | nil => exact h
  | cons a items ih =>
    simp only [List.foldl_cons]
    apply ih
    rcases hfa : f a with _ | b
    · simpa [mapItemsStep, hfa] using h
    · simp only [mapItemsStep, hfa]
      exact hasCurrentLine_addItem ..

theorem itemsFold_lineItemsOf (f : Item → Option Item) (items : List Item) (acc : Song)
    (h : acc.hasCurrentLine = true) :
    lineItemsOf (items.foldl (mapItemsStep f) acc) =
      mapLast (fun its => its ++ items.filterMap f) (lineItemsOf acc) := by
  induction items generalizing acc with
  | nil =>
    simp only [List.foldl_nil, List.filterMap_nil]
    rw [mapLast_congr (lineItemsOf acc) (fun its => List.append_nil its), mapLast_id]
  | cons a items ih =>
    rcases hfa : f a with _ | b
    · simp only [List.foldl_cons, mapItemsStep, hfa]
      rw [ih acc h]
      simp [List.filterMap_cons, hfa]
    · simp only [List.foldl_cons, mapItemsStep, hfa]
      rw [ih _ (hasCurrentLine_addItem ..), lineItemsOf_addItem _ _ h, mapLast_mapLast]
      rw [List.filterMap_cons, hfa]
      apply mapLast_congr
      intro xs
      simp

theorem linesFold_lineItemsOf (f : Item → Option Item) (ls : List Line) (acc : Song) :
    lineItemsOf (ls.foldl
      (fun cloned line => line.items.foldl (mapItemsStep f) cloned.addLine) acc) =
      lineItemsOf acc ++ ls.map (fun l => l.items.filterMap f) := by
  induction ls generalizing acc with
  | nil => simp
  | cons l ls ih =>
    simp only [List.foldl_cons]
    rw [ih]
    rw [itemsFold_lineItemsOf f l.items acc.addLine (hasCurrentLine_addLine acc)]
    rw [lineItemsOf_addLine, mapLast_concat]
    simp

theorem mapItems_lineItemsOf (s : Song) (f : Item → Option Item) :
    lineItemsOf (s.mapItems f) = s.lines.map (fun l => l.items.filterMap f) := by
  unfold Song.mapItems
  rw [linesFold_lineItemsOf]
  rfl

theorem lineItemsOf_clone (s : Song) : lineItemsOf s.clone = lineItemsOf s := by
  unfold Song.clone
  rw [mapItems_lineItemsOf]
  exact List.map_congr_left (fun l _ => filterMap_someFn l.items)

theorem foldl_addItem_eq_step (items : List Item) (acc : Song) :
    items.foldl (fun c item => c.addItem item) acc =
      items.foldl (mapItemsStep (fun i => some i)) acc := by
  induction items generalizing acc with
  | nil => rfl
  | cons a items ih =>
    simp only [List.foldl_cons]
    exact ih (acc.addItem a)

theorem mapLines_lineItemsOf (s : Song) (f : Line → Option Line) :
    lineItemsOf (s.mapLines f) =
      s.lines.filterMap (fun l => (f l).map Line.items) := by
  unfold Song.mapLines
  suffices hgen : ∀ (ls : List Line) (acc : Song),
      lineItemsOf (ls.foldl
        (fun cloned line =>
          match f line with
          | some changed => changed.items.foldl (fun c item => c.addItem item) cloned.addLine
          | none => cloned) acc) =
        lineItemsOf acc ++ ls.filterMap (fun l => (f l).map Line.items) by
    rw [hgen]
    rfl
  intro ls
  induction ls with
  | nil => simp
  | cons l ls ih =>
    intro acc
    simp only [List.foldl_cons]
    rcases hfl : f l with _ | changed
    · rw [ih]
      simp [List.filterMap_cons, hfl]
    · rw [ih]
      change lineItemsOf (changed.items.foldl (fun c item => c.addItem item) acc.addLine) ++ _ = _
      rw [foldl_addItem_eq_step]
      rw [itemsFold_lineItemsOf _ _ _ (hasCurrentLine_addLine acc)]
      rw [lineItemsOf_addLine, mapLast_concat]
      simp [List.filterMap_cons, hfl, filterMap_someFn]

/-!
Lemmas about removeItem, updateItem, insertDirective, setCapo and the
metadata operations.
-/

theorem removeLine_map_items (p : Item → Bool) (line : Line) :
    ((match line.items.findIdx? p with
      | none => some line
      | some index =>
        if line.items.length = 1 then none
        else some { line with items := line.items.take index ++ line.items.drop (index + 1) }).map
        Line.items) =
      removeFirstMatchingItems p line.items := by
  rcases hidx : line.items.findIdx? p with _ | index
  · simp [removeFirstMatchingItems, hidx]
  · simp only [removeFirstMatchingItems, hidx]
    split <;> simp

theorem removeItem_lineItemsOf (s : Song) (p : Item → Bool) :
    lineItemsOf (s.removeItem p) =
      (lineItemsOf s).filterMap (removeFirstMatchingItems p) := by
  unfold Song.removeItem
  rw [mapLines_lineItemsOf]
  unfold lineItemsOf
  rw [List.filterMap_map]
  apply List.filterMap_congr
  intro l _
  exact removeLine_map_items p l

theorem Metadata.lookup_set_none (md : Metadata) (name : String) :
    (md.set name none).lookup name = none := by
  have h : (md.filter (fun e => e.1 != name)).find? (fun e => e.1 = name) = none := by
    rw [List.find?_eq_none]
    intro x hx
    rcases List.mem_filter.mp hx with ⟨_, hq⟩
    simp only [bne_iff_ne, ne_eq] at hq
    simp [hq]
  simp [Metadata.set, Metadata.lookup, h]

theorem find?_map_replace (md : Metadata) (name v : String)
    (hany : (md.any fun e => e.1 = name) = true) :
    ((md.map (fun e => if e.1 = name then (name, [v]) else e)).find?
      (fun e => e.1 = name)).map (fun e => e.2) = some [v] := by
  induction md with
  | nil => simp at hany
  | cons e md ih =>
    by_cases he : e.1 = name
    · simp only [List.map_cons, List.find?, if_pos he]
      simp
    · have hmd : (md.any fun e => e.1 = name) = true := by
        rcases List.any_eq_true.mp hany with ⟨x, hx, hpx⟩
        rcases List.mem_cons.mp hx with rfl | hx'
        · exact absurd (by simpa using hpx) he
        · exact List.any_eq_true.mpr ⟨x, hx', hpx⟩
      have hpe : (decide (e.1 = name)) = false := by simp [he]
      simp only [List.map_cons, List.find?, if_neg he, hpe]
      exact ih hmd

theorem Metadata.lookup_set_some (md : Metadata) (name v : String) :
    (Metadata.set md name (some v)).lookup name = some [v] := by
  by_cases hany : (md.any fun e => e.1 = name) = true
  · have hset : Metadata.set md name (some v) =
        md.map (fun e => if e.1 = name then (name, [v]) else e) := by
      simp only [Metadata.set]
      rw [if_pos hany]
    rw [hset]
    exact find?_map_replace md name v hany
  · have hanyf : (md.any fun e => e.1 = name) = false := by
      cases h : (md.any fun e => e.1 = name)
      · rfl
      · exact absurd h hany
    have hset : Metadata.set md name (some v) = md ++ [(name, [v])] := by
      simp only [Metadata.set]
      rw [if_neg hany]
    rw [hset]
    unfold Metadata.lookup
    rw [find?_append_of_none _ _ _ (fun x hx => by
      have := List.any_eq_false.mp hanyf x hx
      simpa using this)]
    simp [List.find?]

theorem Metadata.getSingle_set_some (md : Metadata) (name v : String) :
    (Metadata.set md name (some v)).getSingle name = some v := by
  simp [Metadata.getSingle, Metadata.lookup_set_some]

theorem setCapoNone_lineItemsOf (s : Song) :
    lineItemsOf (s.setCapo none) =
      (lineItemsOf s).filterMap (removeFirstMatchingItems isCapoItem) := by
  have h : lineItemsOf (s.setCapo none) = lineItemsOf (s.removeItem isCapoItem) := rfl
  rw [h, removeItem_lineItemsOf]

theorem setCapoNone_capoEntry (s : Song) :
    (s.setCapo none).metadata.lookup "capo" = none := by
  have h : (s.setCapo none).metadata =
      Metadata.set (s.removeItem isCapoItem).metadata "capo" none := rfl
  rw [h]
  exact Metadata.lookup_set_none _ _

theorem mapItems_allSome_lineItemsOf (s : Song) (g : Item → Item) :
    lineItemsOf (s.mapItems fun it => some (g it)) =
      s.lines.map (fun l => l.items.map g) := by
  rw [mapItems_lineItemsOf]
  exact List.map_congr_left (fun l _ => filterMap_eq_map_of _ g l.items (fun a => rfl))

theorem mapItems_identity_lineItemsOf (s : Song) (g : Item → Item)
    (h : ∀ l ∈ s.lines, ∀ it ∈ l.items, g it = it) :
    lineItemsOf (s.mapItems fun it => some (g it)) = lineItemsOf s := by
  rw [mapItems_allSome_lineItemsOf]
  exact List.map_congr_left (fun l hl => by
    have : l.items.map g = l.items.map (fun it => it) :=
      List.map_congr_left (fun it hit => h l hl it hit)
    simpa using this)

theorem insertDirective_lineItemsOf (s : Song) (n v : String) :
    ∃ i, lineItemsOf (s.insertDirective n v none) =
      (lineItemsOf s).take i ++ [[Item.tag (Tag.ofName n v)]] ++ (lineItemsOf s).drop i := by
  simp only [Song.insertDirective]
  refine ⟨(match s.lines.findIdx? (fun line =>
      line.items.any (fun item =>
        match item, (none : Option String) with
        | Item.pair _, _ => true
        | Item.tag t, some a => t.name = a
        | Item.tag _, none => false)) with
    | some i => i
    | none => s.clone.lines.length - 1), ?_⟩
  simp only [lineItemsOf, List.map_append, List.map_take, List.map_drop, Line.addTag,
    List.map_cons, List.map_nil]
  have hclone := lineItemsOf_clone s
  simp only [lineItemsOf] at hclone
  rw [hclone]
  rfl

theorem updateItem_notFound (s : Song) (p : Item → Bool) (u : Item → Item)
    (nf : Song → Song) (h : (s.lines.any fun l => l.items.any p) = false) :
    s.updateItem p u nf = nf (s.mapItems fun it => some (if p it then u it else it)) := by
  simp only [Song.updateItem, h]
  rfl

/-!
Lemmas about the paragraphs derivation.
-/

theorem hasRenderableItems_of_isEmpty (l : Line) (h : l.isEmpty = true) :
    l.hasRenderableItems = false := by
  have hnil : l.items = [] := List.isEmpty_iff.mp h
  simp [Line.hasRenderableItems, hnil]

theorem paragraphsFold (ls : List Line) (done : List (List Line)) (cur : List Line) :
    (((ls.foldl paragraphsStep (done, cur)).1 ++ [(ls.foldl paragraphsStep (done, cur)).2]).flatten
        = (done ++ [cur]).flatten ++ ls.filter (fun l => l.hasRenderableItems))
    ∧ ((ls.foldl paragraphsStep (done, cur)).1 ++ [(ls.foldl paragraphsStep (done, cur)).2]).length
        = (done ++ [cur]).length + ls.countP (fun l => l.isEmpty) := by
  induction ls generalizing done cur with
  | nil => simp
  | cons l ls ih =>
    simp only [List.foldl_cons, paragraphsStep]
    by_cases he : l.isEmpty = true
    · rw [if_pos he]
      have hnr := hasRenderableItems_of_isEmpty l he
      obtain ⟨ih1, ih2⟩ := ih (done ++ [cur]) []
      refine ⟨?_, ?_⟩
      · rw [ih1]
        simp [List.filter_cons, hnr]
      · rw [ih2]
        simp [List.countP_cons, he]
        omega
    · rw [if_neg he]
      have heb : l.isEmpty = false := by
        cases h : l.isEmpty
        · rfl
        · exact absurd h he
      by_cases hr : l.hasRenderableItems = true
      · rw [if_pos hr]
        obtain ⟨ih1, ih2⟩ := ih done (cur ++ [l])
        refine ⟨?_, ?_⟩
        · rw [ih1]
          simp [List.filter_cons, hr]
        · rw [ih2]
          simp [List.countP_cons, heb]
      · rw [if_neg hr]
        have hrb : l.hasRenderableItems = false := by
          cases h : l.hasRenderableItems
          · rfl
          · exact absurd h hr
        obtain ⟨ih1, ih2⟩ := ih done cur
        refine ⟨?_, ?_⟩
        · rw [ih1]
          simp [List.filter_cons, hrb]
        · rw [ih2]
          simp [List.countP_cons, heb]

theorem paragraphs_flatten (s : Song) :
    (s.paragraphs).flatten = s.lines.filter (fun l => l.hasRenderableItems) := by
  have h := (paragraphsFold s.lines [] []).1
  simpa [Song.paragraphs] using h

theorem paragraphs_length (s : Song) :
    (s.paragraphs).length = 1 + s.lines.countP (fun l => l.isEmpty) := by
  have h := (paragraphsFold s.lines [] []).2
  simp only [Song.paragraphs]
  rw [h]
  simp [Nat.add_comm]

/-!
Lemmas about the parser state machine (current-line presence and the effects
of the section helpers).
-/

theorem hasCurrentLine_setCurrentProperties (s : Song) (t : String) :
    (s.setCurrentProperties t).hasCurrentLine = s.hasCurrentLine := rfl

theorem hasCurrentLine_startNewLine (st : UGState) :
    st.startNewLine.song.hasCurrentLine = true := rfl

theorem hasCurrentLine_endSectionUG (st : UGState) (b : Bool)
    (h : st.song.hasCurrentLine = true) :
    (st.endSectionUG b).song.hasCurrentLine = true := by
  rcases hcs : st.currentSectionType with _ | t
  · simp [UGState.endSectionUG, hcs, Song.setCurrentProperties, Song.setCurrentLineType,
      Song.modifyCurrentLine, h]
  · rcases het : endTagFor t with _ | tagName
    · simp [UGState.endSectionUG, hcs, het, Song.setCurrentProperties,
        Song.setCurrentLineType, Song.modifyCurrentLine, h]
    · cases b
      · simp [UGState.endSectionUG, hcs, het, Song.setCurrentProperties,
          Song.setCurrentLineType, Song.modifyCurrentLine, hasCurrentLine_addTag]
      · simp [UGState.endSectionUG, hcs, het, Song.setCurrentProperties,
          Song.setCurrentLineType, Song.modifyCurrentLine, UGState.startNewLine,
          Song.addLine]

theorem hasCurrentLine_startSectionUG (st : UGState) (t label : String)
    (h : st.song.hasCurrentLine = true) :
    (st.startSectionUG t label).song.hasCurrentLine = true := by
  have hend := hasCurrentLine_endSectionUG st true h
  rcases hst : startTagFor t with _ | tagName <;>
    rcases hcs : st.currentSectionType with _ | t'
  · simp [UGState.startSectionUG, hcs, hst, Song.setCurrentProperties,
      Song.setCurrentLineType, Song.modifyCurrentLine, h]
  · by_cases ht' : t' = "" <;>
      simp [UGState.startSectionUG, hcs, hst, ht', Song.setCurrentProperties,
        Song.setCurrentLineType, Song.modifyCurrentLine, h, hend]
  · simp [UGState.startSectionUG, hcs, hst, Song.setCurrentProperties,
      Song.setCurrentLineType, Song.modifyCurrentLine, hasCurrentLine_addTag]
  · by_cases ht' : t' = "" <;>
      simp [UGState.startSectionUG, hcs, hst, ht', Song.setCurrentProperties,
        Song.setCurrentLineType, Song.modifyCurrentLine, hasCurrentLine_addTag]

theorem parseMetadataLine_isSome (st : UGState) (line : String) :
    (st.parseMetadataLine line).isSome = true := by
  simp only [UGState.parseMetadataLine]
  rw [if_pos (hasCurrentLine_endSectionUG st.startNewLine true
    (hasCurrentLine_startNewLine st))]
  rfl

theorem writeTabLine_isSome (st : UGState) (line : String) :
    (st.writeTabLine line).isSome = true := by
  simp only [UGState.writeTabLine]
  by_cases hc : st.startNewLine.currentSectionType ≠ some TAB
  · rw [if_pos hc]
    rw [if_pos (hasCurrentLine_startSectionUG _ TAB ""
      (hasCurrentLine_startNewLine _))]
    rfl
  · rw [if_neg hc]
    rw [if_pos (hasCurrentLine_startNewLine st)]
    rfl

theorem getLast_items_eq (s : Song) :
    (s.lines.getLast?).map Line.items = (lineItemsOf s).getLast? :=
  (List.getLast?_map _ _).symm

theorem getLast_lineItemsOf_addLine (s : Song) :
    (lineItemsOf s.addLine).getLast? = some [] := by
  rw [lineItemsOf_addLine, List.getLast?_concat]

theorem getLast_lineItemsOf_addTag (s : Song) (t : Tag) (h : s.hasCurrentLine = true) :
    (lineItemsOf (s.addTag t)).getLast? =
      ((lineItemsOf s).getLast?).map (fun its => its ++ [Item.tag t]) := by
  rw [lineItemsOf_addTag_true s t h, getLast?_mapLast]

theorem getLast_lineItemsOf_setCurrentProperties (s : Song) (t : String) :
    (lineItemsOf (s.setCurrentProperties t)).getLast? = (lineItemsOf s).getLast? := by
  have h : lineItemsOf (s.setCurrentProperties t) = lineItemsOf s :=
    lineItemsOf_setCurrentLineType s t
  rw [h]

theorem getLast_addPair (st : UGState) (p : ChordLyricsPair) :
    (lineItemsOf (st.addPairToSongLine p).song).getLast? =
      ((lineItemsOf st.song).getLast?).map (fun its => its ++ [Item.pair p]) := by
  simp only [UGState.addPairToSongLine, lineItemsOf, Song.modifyCurrentLine]
  rw [map_mapLast _ Line.items (fun its => its ++ [Item.pair p]) _ (fun a => rfl)]
  exact getLast?_mapLast ..

theorem endSectionUG_true_getLast_empty (st : UGState)
    (h : (lineItemsOf st.song).getLast? = some [])
    (hcl : st.song.hasCurrentLine = true) :
    (lineItemsOf (st.endSectionUG true).song).getLast? = some []
    ∧ (st.endSectionUG true).song.hasCurrentLine = true := by
  refine ⟨?_, hasCurrentLine_endSectionUG st true hcl⟩
  rcases hcs : st.currentSectionType with _ | t
  · simp only [UGState.endSectionUG, hcs]
    rw [getLast_lineItemsOf_setCurrentProperties]
    exact h
  · rcases het : endTagFor t with _ | tagName
    · simp only [UGState.endSectionUG, hcs, het]
      rw [getLast_lineItemsOf_setCurrentProperties]
      exact h
    · simp only [UGState.endSectionUG, hcs, het]
      rw [getLast_lineItemsOf_setCurrentProperties]
      exact getLast_lineItemsOf_addLine _

theorem sectionTagAppend (s0 : Song)
    (h : (lineItemsOf s0).getLast? = some [])
    (hc : s0.hasCurrentLine = true) :
    (lineItemsOf ((s0.setCurrentProperties TAB).addTag
        (Tag.ofName START_OF_TAB ""))).getLast? =
        some [Item.tag (Tag.ofName START_OF_TAB "")]
    ∧ ((s0.setCurrentProperties TAB).addTag
        (Tag.ofName START_OF_TAB "")).hasCurrentLine = true := by
  refine ⟨?_, hasCurrentLine_addTag _ _⟩
  have hprops : (s0.setCurrentProperties TAB).hasCurrentLine = true := by
    rw [hasCurrentLine_setCurrentProperties]
    exact hc
  rw [getLast_lineItemsOf_addTag _ _ hprops,
    getLast_lineItemsOf_setCurrentProperties, h]
  rfl

theorem startSectionUG_TAB (st : UGState)
    (h : (lineItemsOf st.song).getLast? = some [])
    (hcl : st.song.hasCurrentLine = true) :
    ((st.startSectionUG TAB "").currentSectionType = some TAB)
    ∧ (lineItemsOf (st.startSectionUG TAB "").song).getLast? =
        some [Item.tag (Tag.ofName START_OF_TAB "")]
    ∧ (st.startSectionUG TAB "").song.hasCurrentLine = true := by
  have hstag : startTagFor TAB = some START_OF_TAB := rfl
  rcases hcs : st.currentSectionType with _ | t
  · have hred : st.startSectionUG TAB "" =
        ⟨(st.song.setCurrentProperties TAB).addTag (Tag.ofName START_OF_TAB ""),
          some TAB⟩ := by
      simp only [UGState.startSectionUG, hcs, hstag]
    rw [hred]
    exact ⟨rfl, (sectionTagAppend st.song h hcl).1, (sectionTagAppend st.song h hcl).2⟩
  · by_cases ht : t = ""
    · have hred : st.startSectionUG TAB "" =
          ⟨(st.song.setCurrentProperties TAB).addTag (Tag.ofName START_OF_TAB ""),
            some TAB⟩ := by
        simp only [UGState.startSectionUG, hcs, hstag, ht, if_pos]
      rw [hred]
      exact ⟨rfl, (sectionTagAppend st.song h hcl).1, (sectionTagAppend st.song h hcl).2⟩
    · have hred : st.startSectionUG TAB "" =
          ⟨((st.endSectionUG true).song.setCurrentProperties TAB).addTag
              (Tag.ofName START_OF_TAB ""),
            some TAB⟩ := by
        simp only [UGState.startSectionUG, hcs, hstag, ht, if_neg]
        simp
      rw [hred]
      obtain ⟨h1, h2⟩ := endSectionUG_true_getLast_empty st h hcl
      exact ⟨rfl, (sectionTagAppend _ h1 h2).1, (sectionTagAppend _ h1 h2).2⟩

theorem writeTabLine_spec (st : UGState) (line : String) :
    ((st.writeTabLine line).map (fun r =>
        (r.currentSectionType, (r.song.lines.getLast?).map Line.items))) =
      some (some TAB,
        some (if st.currentSectionType = some TAB
          then [Item.pair ⟨none, line⟩]
          else [Item.tag (Tag.ofName START_OF_TAB ""), Item.pair ⟨none, line⟩])) := by
  by_cases hc : st.currentSectionType = some TAB
  · have hnn : ¬(st.currentSectionType ≠ some TAB) := fun hne => hne hc
    simp only [UGState.writeTabLine]
    rw [show st.startNewLine.currentSectionType = st.currentSectionType from rfl]
    rw [if_neg hnn]
    rw [if_pos (hasCurrentLine_startNewLine st)]
    simp only [Option.map_some']
    rw [show (st.startNewLine.addPairToSongLine
        ⟨none, line⟩).currentSectionType = st.currentSectionType from rfl, hc]
    rw [getLast_items_eq, getLast_addPair,
      show (lineItemsOf st.startNewLine.song).getLast? = some [] from
        getLast_lineItemsOf_addLine st.song]
    simp
  · have harg1 : (lineItemsOf (st.startNewLine.startNewLine).song).getLast? = some [] :=
      getLast_lineItemsOf_addLine st.song.addLine
    have harg2 : (st.startNewLine.startNewLine).song.hasCurrentLine = true := rfl
    obtain ⟨hc2, hlast2, hflag2⟩ :=
      startSectionUG_TAB (st.startNewLine.startNewLine) harg1 harg2
    have hpp : st.currentSectionType ≠ some TAB := hc
    simp only [UGState.writeTabLine]
    rw [show st.startNewLine.currentSectionType = st.currentSectionType from rfl]
    rw [if_pos hpp]
    rw [if_pos hflag2]
    simp only [Option.map_some']
    rw [show (((st.startNewLine.startNewLine).startSectionUG TAB
        "").addPairToSongLine ⟨none, line⟩).currentSectionType =
        ((st.startNewLine.startNewLine).startSectionUG TAB "").currentSectionType from rfl,
      hc2]
    rw [getLast_items_eq, getLast_addPair, hlast2]
    rw [if_neg hc]
    rfl

theorem parseLine_isSome (st : UGState) (line : String) :
    (st.parseLine line).isSome = true := by
  simp only [UGState.parseLine]
  split
  · rfl
  · split
    · rfl
    · split
      · exact parseMetadataLine_isSome _ _
      · split
        · exact writeTabLine_isSome _ _
        · split
          · rw [if_pos (hasCurrentLine_startNewLine _)]
            rfl
          · rfl

theorem warnings_addTag (s : Song) (t : Tag) :
    (s.addTag t).warnings = (s.addTagDispatch t).warnings := by
  simp only [Song.addTag, Song.ensureLine, Song.modifyCurrentLine]
  split <;> rfl

theorem sectionType_addTag (s : Song) (t : Tag) :
    (s.addTag t).sectionType = (s.addTagDispatch t).sectionType := by
  simp only [Song.addTag, Song.ensureLine, Song.modifyCurrentLine]
  split <;> rfl

/-!
The claim theorems.
-/

/-- C1, counterexample: the claim "clone(s) is structurally equal to s —
same lines, same items per line, same metadata" fails on the metadata
component — a Song with constructor-seeded metadata and no lines clones to
a Song with empty metadata, because mapItems rebuilds metadata by replaying
the line items. -/
theorem C1_counterexample :
    (Song.clone seededSong).metadata ≠ seededSong.metadata := by
  decide

/-- C1, amended: for every Song s, clone(s) = mapItems(identity) preserves
the line structure — the same number of lines with identical item sequence
per line (and, the embedding being pure, building the clone leaves s
untouched) — while metadata is recomputed from the replayed items and may
differ from s's. -/
theorem C1_clone_preserves_items (s : Song) :
    lineItemsOf s.clone = lineItemsOf s
    ∧ s.clone.lines.length = s.lines.length := by
  refine ⟨lineItemsOf_clone s, ?_⟩
  have hlen := congrArg List.length (lineItemsOf_clone s)
  simpa [lineItemsOf] using hlen

/-- C2, counterexample: the claim "setCapo(s, null) removes every Tag named
capo" fails on a Line holding two capo tags — removeItem excises only the
first match per Line, so a capo tag survives. -/
theorem C2_counterexample :
    ((twoCapoSong.setCapo none).lines.any (fun l => l.items.any isCapoItem)) = true := by
  decide

/-- C2, amended: setCapo(s, null) removes, from each Line, the first Tag
named capo (a Line whose single item was that tag is dropped entirely;
later capo tags in the same Line survive), and removes the capo metadata
entry; s itself is unchanged (the embedding is pure). -/
theorem C2_setCapo_null (s : Song) :
    lineItemsOf (s.setCapo none) =
      (lineItemsOf s).filterMap (removeFirstMatchingItems isCapoItem)
    ∧ (s.setCapo none).metadata.lookup "capo" = none :=
  ⟨setCapoNone_lineItemsOf s, setCapoNone_capoEntry s⟩

/-- C3, counterexample: the claim says pairs are transposed by
distance(s.currentKey, k); the code passes the song's key metadata accessor
(this.key) to Key.distance, not the transient currentKey field.  On a Song
whose currentKey is "G" but whose metadata has no key entry, the probe
collaborator distinguishes the two. -/
theorem C3_counterexample :
    lineItemsOf (Song.setKey distProbe transProbe keyProbeSong "D") =
      [[Item.pair ⟨some "C", "0"⟩]]
    ∧ [[Item.pair ⟨some "C", "0"⟩]] ≠
      [[Item.pair (transProbe ⟨some "C", "x"⟩
          (distProbe keyProbeSong.currentKey "D") "D")]] := by
  constructor <;> decide

/-- C3, amended: for every collaborator pair (dist, trans), Song s and key
k, setKey rewrites every key Tag's value to k, maps every ChordLyricsPair p
to trans p (dist k0 k) k where k0 is the song's key metadata entry (the
`key` accessor), and sets the key metadata entry to k; s is unchanged. -/
theorem C3_setKey (dist : Option String → String → Int)
    (trans : ChordLyricsPair → Int → String → ChordLyricsPair)
    (s : Song) (key : String) :
    lineItemsOf (Song.setKey dist trans s key) =
      s.lines.map (fun l => l.items.map (setKeyItem dist trans s key))
    ∧ (Song.setKey dist trans s key).metadata.getSingle "key" = some key := by
  constructor
  · have h0 : lineItemsOf (Song.setKey dist trans s key) =
        lineItemsOf (s.mapItems (fun item =>
          match item with
          | Item.tag t =>
            if t.name = KEY then some (Item.tag { t with value := key }) else some item
          | Item.pair p => some (Item.pair (trans p (dist s.songKey key) key)))) := rfl
    rw [h0, mapItems_lineItemsOf]
    refine List.map_congr_left (fun l _ => ?_)
    apply filterMap_eq_map_of
    intro a
    cases a with
    | tag t =>
      by_cases hn : t.name = KEY
      · simp [setKeyItem, hn]
      · simp [setKeyItem, hn]
    | pair p => rfl
  · exact Metadata.getSingle_set_some _ _ _

/-- C5: in mapItems, each original Line gives rise to exactly one Line of
the result, in order; its items are the filterMap of the callback over the
original items, so a Line all of whose items map to none still exists with
zero items. -/
theorem C5_mapItems_line_structure (s : Song) (f : Item → Option Item) :
    (s.mapItems f).lines.length = s.lines.length
    ∧ lineItemsOf (s.mapItems f) = s.lines.map (fun l => l.items.filterMap f) := by
  have h := mapItems_lineItemsOf s f
  refine ⟨?_, h⟩
  have hlen := congrArg List.length h
  simpa [lineItemsOf] using hlen

/-- C8, counterexample: parsing "Am C G 2x" yields the chord text with the
marker blanked, but the lyric text is nine spaces followed by the whole
marker "2x" — it ends in "x", not in a trailing "2" aligned under the
marker's position as the claim states. -/
theorem C8_counterexample :
    ((UGState.initial.parseLine "Am C G 2x").map (fun st => lineItemsOf st.song)) =
      some [[Item.pair ⟨some "Am C G   ", "         2x"⟩]]
    ∧ "         2x".data.getLast? ≠ some '2' := by
  constructor <;> decide

/-- C8, amended: parsing "Am C G 2x" yields a single ChordLyricsPair whose
chord text is the line with the marker replaced by spaces ("Am C G   ")
and whose lyric text is as many spaces as the chord text followed by the
full marker with colons removed ("2x"), i.e. the marker lands after the
chord text's width rather than under the marker's own column. -/
theorem C8_repetition_marker :
    ((UGState.initial.parseLine "Am C G 2x").map (fun st => lineItemsOf st.song)) =
      some [[Item.pair ⟨some "Am C G   ",
        spacesOf "Am C G   ".length ++ removeFirstColon "2x"⟩]] := by
  decide

/-- C9: the paragraphs derivation partitions the lines in order — the
concatenation of the groups is exactly the renderable lines in order, one
group is opened at every empty Line (the empty Line joining no group), and
the four-line demo input yields exactly two paragraphs, [line1] and
[line3, line4]. -/
theorem C9_paragraphs (s : Song) :
    (s.paragraphs).flatten = s.lines.filter (fun l => l.hasRenderableItems)
    ∧ (s.paragraphs).length = 1 + s.lines.countP (fun l => l.isEmpty)
    ∧ demoParagraphSong.paragraphs = [[demoLine1], [demoLine3, demoLine4]] :=
  ⟨paragraphs_flatten s, paragraphs_length s, by decide⟩

/-- C10: the "Expected this.songLine to be present" throws are unreachable —
parseLine (hence its repetition-marker, metadata-line and tablature
branches, whose null checks are modelled by Option) always returns a value,
and Song.addLine always leaves a current line in place. -/
theorem C10_songLine_checks (st : UGState) (line : String) (s : Song) :
    (st.parseLine line).isSome = true
    ∧ (st.parseMetadataLine line).isSome = true
    ∧ (st.writeTabLine line).isSome = true
    ∧ (s.addLine).hasCurrentLine = true :=
  ⟨parseLine_isSome st line, parseMetadataLine_isSome st line,
    writeTabLine_isSome st line, hasCurrentLine_addLine s⟩

/-- C6: adding an end-of-chorus tag while the tracked section type is not
CHORUS records exactly one warning — whose message carries the tag's
original text and the tracked section — still resets the section state to
NONE and keeps the line content intact apart from the appended tag; and
parsing an input whose verse is opened and later correctly closed records
no warning at all. -/
theorem C6_section_mismatch (s : Song) (orig val : String)
    (h : s.sectionType ≠ CHORUS) :
    endOfChorusMismatch s orig val
    ∧ (ugParse balancedVerseInput).map Song.warnings = some [] := by
  constructor
  · have hdis : s.addTagDispatch ⟨END_OF_CHORUS, orig, val, none, none⟩ =
        s.endSection CHORUS ⟨END_OF_CHORUS, orig, val, none, none⟩ := rfl
    have hend : s.endSection CHORUS ⟨END_OF_CHORUS, orig, val, none, none⟩ =
        { s with
          warnings := s.warnings ++
            [⟨"Unexpected tag \x7b" ++ orig ++ ", current section is: " ++
                s.sectionType, none, none⟩],
          sectionType := NONE } := by
      simp only [Song.endSection, Song.checkCurrentSectionType]
      rw [if_pos h]
      rfl
    refine ⟨?_, ?_, ?_⟩
    · rw [warnings_addTag, hdis, hend]
    · rw [sectionType_addTag, hdis, hend]
    · cases hcl : s.hasCurrentLine
      · rw [if_neg (by simp)]
        exact lineItemsOf_addTag_false s _ hcl
      · rw [if_pos rfl]
        exact lineItemsOf_addTag_true s _ hcl
  · decide

/-- C6, witness: the mismatch property at a Song whose tracked section is
VERSE, with the general end-of-chorus tag. -/
theorem C6_section_mismatch_witness :
    verseStateSong.sectionType ≠ CHORUS
    ∧ (endOfChorusMismatch verseStateSong "end_of_chorus" ""
        ∧ (ugParse balancedVerseInput).map Song.warnings = some []) :=
  ⟨by decide, C6_section_mismatch verseStateSong "end_of_chorus" "" (by decide)⟩

/-- C7: a raw line that matches none of the bracket patterns, is longer
than 8 characters and holds more than 5 dashes is classified as tablature —
after the blank-line section-end step, the parser ends up tracking a TAB
section, and the current (last) Line ends with a chord-less pair whose
lyrics are the whole raw line, preceded by a start-of-tab tag exactly when
no TAB section was open. -/
theorem C7_tab_heuristic (st : UGState) (line : String)
    (h1 : verseMatch line = none) (h2 : chorusMatch line = none)
    (h3 : otherMatch line = none) (h4 : 8 < line.length)
    (h5 : 5 < dashCount line) :
    ((st.parseLine line).map (fun r =>
        (r.currentSectionType, (r.song.lines.getLast?).map Line.items))) =
      some (some TAB,
        some (if (if st.isSectionEnd then st.endSectionUG true
              else st).currentSectionType = some TAB
          then [Item.pair ⟨none, line⟩]
          else [Item.tag (Tag.ofName START_OF_TAB ""), Item.pair ⟨none, line⟩])) := by
  have hv : ((verseMatch line).isSome) = false := by rw [h1]; rfl
  have hc : ((chorusMatch line).isSome) = false := by rw [h2]; rfl
  have ho : ((otherMatch line).isSome) = false := by rw [h3]; rfl
  have hred : st.parseLine line =
      (if st.isSectionEnd then st.endSectionUG true else st).writeTabLine line := by
    simp only [UGState.parseLine, hv, hc, ho, Bool.false_eq_true, if_false]
    rw [if_pos ⟨h4, h5⟩]
  rw [hred]
  exact writeTabLine_spec (if st.isSectionEnd then st.endSectionUG true else st) line

/-- C7, witness: the heuristic on a ten-dash line fed to the initial parser
state. -/
theorem C7_tab_heuristic_witness :
    (verseMatch "----------" = none ∧ chorusMatch "----------" = none
      ∧ otherMatch "----------" = none ∧ 8 < "----------".length
      ∧ 5 < dashCount "----------")
    ∧ ((UGState.initial.parseLine "----------").map (fun r =>
        (r.currentSectionType, (r.song.lines.getLast?).map Line.items))) =
      some (some TAB,
        some (if (if UGState.initial.isSectionEnd then UGState.initial.endSectionUG true
              else UGState.initial).currentSectionType = some TAB
          then [Item.pair ⟨none, "----------"⟩]
          else [Item.tag (Tag.ofName START_OF_TAB ""),
            Item.pair ⟨none, "----------"⟩])) :=
  ⟨⟨by decide, by decide, by decide, by decide, by decide⟩,
    C7_tab_heuristic UGState.initial "----------"
      (by decide) (by decide) (by decide) (by decide) (by decide)⟩

/-- C4: for a Song with no capo Tag among its line items, the round trip
setCapo(setCapo(s, 3), null) removes the capo metadata entry and exactly
the capo directive Line that setCapo(s, 3) inserted: the per-line item
sequences, and hence the total item count, return to those of s.  (When s
already holds a capo tag the pairing fails — see the counterexample.) -/
theorem C4_capo_roundtrip (s : Song)
    (h : ∀ l ∈ s.lines, ∀ it ∈ l.items, isCapoItem it = false) :
    lineItemsOf ((s.setCapo (some "3")).setCapo none) = lineItemsOf s
    ∧ ((s.setCapo (some "3")).setCapo none).itemCount = s.itemCount
    ∧ ((s.setCapo (some "3")).setCapo none).metadata.lookup "capo" = none := by
  have hany : (s.lines.any fun l => l.items.any isCapoItem) = false := by
    rw [List.any_eq_false]
    intro l hl
    rw [Bool.not_eq_true, List.any_eq_false]
    intro it hit
    rw [Bool.not_eq_true]
    exact h l hl it hit
  have hupd : s.updateItem isCapoItem (fun item => item.setTagValue "3")
      (fun song => song.insertDirective CAPO "3" none) =
      ((s.mapItems fun it => some (if isCapoItem it then it.setTagValue "3" else it)).insertDirective
        CAPO "3" none) :=
    updateItem_notFound s _ _ _ hany
  have hu_items : lineItemsOf
      (s.mapItems fun it => some (if isCapoItem it then it.setTagValue "3" else it)) =
      lineItemsOf s :=
    mapItems_identity_lineItemsOf s _ (fun l hl it hit => by
      rw [h l hl it hit]
      simp)
  obtain ⟨i, hins⟩ := insertDirective_lineItemsOf
    (s.mapItems fun it => some (if isCapoItem it then it.setTagValue "3" else it)) CAPO "3"
  have hs1items : lineItemsOf (s.setCapo (some "3")) =
      (lineItemsOf s).take i ++ [[Item.tag (Tag.ofName CAPO "3")]] ++
        (lineItemsOf s).drop i := by
    have h0 : lineItemsOf (s.setCapo (some "3")) =
        lineItemsOf (s.updateItem isCapoItem (fun item => item.setTagValue "3")
          (fun song => song.insertDirective CAPO "3" none)) := rfl
    rw [h0, hupd]
    rw [hu_items] at hins
    exact hins
  have h2 : lineItemsOf ((s.setCapo (some "3")).setCapo none) =
      (lineItemsOf (s.setCapo (some "3"))).filterMap
        (removeFirstMatchingItems isCapoItem) :=
    setCapoNone_lineItemsOf _
  rw [hs1items] at h2
  have hAfree : ∀ xs ∈ (lineItemsOf s).take i,
      removeFirstMatchingItems isCapoItem xs = some xs := by
    intro xs hxs
    have hxs' : xs ∈ lineItemsOf s := List.take_subset i _ hxs
    rcases List.mem_map.mp hxs' with ⟨l, hl, rfl⟩
    unfold removeFirstMatchingItems
    rw [findIdx?_none_of _ _ (fun it hit => h l hl it hit)]
  have hBfree : ∀ xs ∈ (lineItemsOf s).drop i,
      removeFirstMatchingItems isCapoItem xs = some xs := by
    intro xs hxs
    have hxs' : xs ∈ lineItemsOf s := List.drop_subset i _ hxs
    rcases List.mem_map.mp hxs' with ⟨l, hl, rfl⟩
    unfold removeFirstMatchingItems
    rw [findIdx?_none_of _ _ (fun it hit => h l hl it hit)]
  have hmid : removeFirstMatchingItems isCapoItem [Item.tag (Tag.ofName CAPO "3")] =
      none := by decide
  rw [List.filterMap_append, List.filterMap_append,
    filterMap_eq_self_of _ _ hAfree, filterMap_eq_self_of _ _ hBfree] at h2
  rw [show ([[Item.tag (Tag.ofName CAPO "3")]].filterMap
      (removeFirstMatchingItems isCapoItem)) = [] from by
    simp [List.filterMap_cons, hmid]] at h2
  rw [List.append_nil, List.take_append_drop] at h2
  refine ⟨h2, ?_, setCapoNone_capoEntry _⟩
  unfold Song.itemCount
  rw [h2]

/-- C4, witness: the round trip on a capo-free two-line content Song. -/
theorem C4_capo_roundtrip_witness :
    (∀ l ∈ plainContentSong.lines, ∀ it ∈ l.items, isCapoItem it = false)
    ∧ (lineItemsOf ((plainContentSong.setCapo (some "3")).setCapo none) =
          lineItemsOf plainContentSong
      ∧ ((plainContentSong.setCapo (some "3")).setCapo none).itemCount =
          plainContentSong.itemCount
      ∧ ((plainContentSong.setCapo (some "3")).setCapo none).metadata.lookup "capo" =
          none) :=
  ⟨by decide, C4_capo_roundtrip plainContentSong (by decide)⟩

/-- C4, counterexample: on a Song that already carries a capo directive,
setCapo(s, 3) updates it in place (inserting nothing) and setCapo(·, null)
then removes it, so the final item count drops below that of s instead of
matching it. -/
theorem C4_counterexample :
    Song.itemCount ((capoContentSong.setCapo (some "3")).setCapo none) ≠
      capoContentSong.itemCount := by
  decide

end ChordSheet
